import Mathlib

/-!
Shallow embedding of the capability lifecycle and validation engine of
`aether-vault` (Rust crate under `src/package/rust/src/`), together with
theorems settling the frozen claims about it.

Modelling conventions, stated once:
* `chrono::DateTime<Utc>` instants are modelled as `Int` (Unix seconds);
  `chrono` ignores leap seconds, so days are uniformly 86400 s and the
  weekday of an instant is an affine function of its day number.
* `u32` counters (`current_uses`, `max_uses`) are modelled as `Nat`.
  Overflow of the use counter is a Rust panic under checked arithmetic and
  would require 2^32 recorded uses; it is treated as unreachable.
* `Uuid` is modelled as its canonical string rendering (`String`), which is
  also the form `serde` puts on the wire.
* `HashSet<String>` is modelled as `List String` (membership is the only
  operation the code performs on these sets); `Option` preserves the
  source's `None` vs `Some(empty)` distinction.
* Nondeterministic inputs of the code (`Utc::now()`, `Uuid::new_v4()`) are
  explicit parameters of the Lean functions.
* Rust `Result<T>` is `Except VaultError T`; a `&mut self` method returning
  `Result<()>` becomes a function `Capability → Except VaultError Unit × Capability`
  returning the result together with the updated token.
* A Rust panic (e.g. `.unwrap()` on an `Err`) is modelled as `Option.none`.
-/

namespace AetherVault

/-- Access domains (`enum Domain`, capability.rs lines 114-139). -/
inductive Domain where
  | Database
  | Tls
  | Smtp
  | Imap
  | Docker
  | Git
  | Filesystem
  | Cloud
  | Api
  | Ssh
  | Custom (name : String)
deriving DecidableEq, Repr

/-- Access actions (`enum Action`, capability.rs lines 160-181). -/
inductive Action where
  | Read
  | Write
  | Delete
  | Execute
  | List
  | Admin
  | Create
  | Update
  | Custom (name : String)
deriving DecidableEq, Repr

/-- Time window constraints (`struct TimeWindow`, capability.rs lines 70-78).
The Rust field `end` is a Lean keyword, so it is named `end_` here. -/
structure TimeWindow where
  start : Int
  end_ : Int
  days_of_week : Option (List Nat)
deriving DecidableEq, Repr

/-- Usage limits (`struct UsageLimits`, capability.rs lines 81-89).
The `uses_per_window` pair `(u32, chrono::Duration)` is modelled as
`Nat × Int` (count, duration in seconds). -/
structure UsageLimits where
  max_uses : Option Nat
  uses_per_window : Option (Nat × Int)
  current_uses : Nat
deriving DecidableEq, Repr

/-- Capability context constraints (`struct CapabilityContext`,
capability.rs lines 48-67). -/
structure CapabilityContext where
  environments : Option (List String)
  services : Option (List String)
  namespaces : Option (List String)
  ip_constraints : Option (List String)
  time_window : Option TimeWindow
  usage_limits : Option UsageLimits
deriving DecidableEq, Repr

/-- Capability token (`struct Capability`, capability.rs lines 14-45).
`signature : List Nat` models `Vec<u8>`. -/
structure Capability where
  id : String
  domain : Domain
  action : Action
  target : String
  context : CapabilityContext
  issued_at : Int
  expires_at : Int
  issuer : String
  subject : String
  signature : List Nat
deriving DecidableEq, Repr

/-- Capability-specific errors (`enum CapabilityError`, error.rs lines
80-109); only the payload shapes the modelled code constructs or matches
on are kept (timestamps as `Int`, uuids as `String`). -/
inductive CapabilityError where
  | InvalidFormat (msg : String)
  | Expired (at_ : Int)
  | NotFound (id : String)
  | InvalidDomain (s : String)
  | InvalidAction (s : String)
  | Revoked (id : String)
  | ScopeMismatch (msg : String)
deriving DecidableEq, Repr

/-- Main error type (`enum VaultError`, error.rs lines 12-77), restricted
to the variants the modelled code can produce: `Capability` wraps a
`CapabilityError` (the `#[from]` conversion used by `.into()`), and
`Transport` stands for any transport-layer failure of a remote call. -/
inductive VaultError where
  | Capability (e : CapabilityError)
  | Transport (msg : String)
deriving DecidableEq, Repr

/-- Weekday of a Unix-seconds instant, numbered from Sunday (0=Sunday …
6=Saturday), as computed by `now.weekday().num_days_from_sunday()` in
capability.rs line 242: the Unix epoch fell on a Thursday (= 4), and
`chrono`'s timeline has uniform 86400-second days. -/
def num_days_from_sunday (t : Int) : Nat :=
  (((t.fdiv 86400) + 4).emod 7).toNat

/-- Usage-limit gate of `Capability::is_valid` (capability.rs lines
249-256): the trailing code reached when the expiry and time-window
checks did not return early. -/
def usageGate (c : Capability) : Bool :=
  match c.context.usage_limits with
  | some ul =>
    match ul.max_uses with
    | some m => if ul.current_uses ≥ m then false else true
    | none => true
  | none => true

/-- `Capability::is_valid` (capability.rs lines 226-259), with the implicit
`Utc::now()` made an explicit parameter `now`. The source's sequence of
early `return false`s becomes nested conditionals ending in `usageGate`. -/
def Capability.is_valid (c : Capability) (now : Int) : Bool :=
  if now > c.expires_at then
    false
  else
    match c.context.time_window with
    | some tw =>
      if now < tw.start || now > tw.end_ then
        false
      else
        match tw.days_of_week with
        | some allowed_days =>
          if !(allowed_days.contains (num_days_from_sunday now)) then
            false
          else
            usageGate c
        | none => usageGate c
    | none => usageGate c

/-- `Capability::is_valid_for_context` (capability.rs lines 262-289): four
independent early-`return false` gates, rendered as the equivalent
conjunction (the function returns `true` iff no gate fired). -/
def Capability.is_valid_for_context (c : Capability) (environment service namespc : String)
    (now : Int) : Bool :=
  c.is_valid now &&
  (match c.context.environments with
   | some allowed_envs => allowed_envs.contains environment
   | none => true) &&
  (match c.context.services with
   | some allowed_services => allowed_services.contains service
   | none => true) &&
  (match c.context.namespaces with
   | some allowed_namespaces => allowed_namespaces.contains namespc
   | none => true)

/-- `Capability::increment_usage` (capability.rs lines 302-315). The Rust
method takes `&mut self` and returns `Result<()>`; the model returns the
result paired with the updated token. The increment is applied before the
limit check, so the error path still commits the increment. -/
def Capability.increment_usage (c : Capability) : Except VaultError Unit × Capability :=
  match c.context.usage_limits with
  | some ul =>
    let ul' : UsageLimits := { ul with current_uses := ul.current_uses + 1 }
    let c' : Capability := { c with context := { c.context with usage_limits := some ul' } }
    match ul.max_uses with
    | some m =>
      if ul.current_uses + 1 > m then
        (Except.error (VaultError.Capability
          (CapabilityError.ScopeMismatch "Usage limit exceeded")), c')
      else
        (Except.ok (), c')
    | none => (Except.ok (), c')
  | none => (Except.ok (), c)

/-- `chrono::Duration::from_std` as used by `Capability::new`
(capability.rs line 218): converts a `std::time::Duration` (here: a `Nat`
of whole seconds) to a `chrono::Duration`, failing iff the value exceeds
`chrono::Duration`'s documented maximum of `i64::MAX` milliseconds. -/
def durationFromStd (ttl : Nat) : Option Int :=
  if ttl * 1000 > 9223372036854775807 then none else some (ttl : Int)

/-- Smallest representable `chrono` datetime in Unix seconds:
`NaiveDate::MIN` is January 1 of astronomical year -262143
(`(i32::MIN >> 13) + 1`), whose midnight has timestamp -8334601228800 in
the proleptic Gregorian calendar. -/
def minUtcSecs : Int := -8334601228800

/-- Largest whole-second `chrono` datetime instant in Unix seconds:
`NaiveDate::MAX` is December 31 of year 262142 (`(i32::MAX >> 13) - 1`),
whose last second 23:59:59 has timestamp 8210266876799. -/
def maxUtcSecs : Int := 8210266876799

/-- `DateTime<Utc> + chrono::Duration` as used by `Capability::new`
(capability.rs line 218): chrono's `Add` impl is
`checked_add_signed(rhs).expect(..)`, which panics when the sum leaves the
representable datetime range `[minUtcSecs, maxUtcSecs]`; the panic is
modelled as `none`. This overflow is reachable below `from_std`'s bound:
`maxUtcSecs` (about 2.6e5 years) is five orders of magnitude below
`i64::MAX` milliseconds (about 2.9e8 years). -/
def datetimeAdd (now d : Int) : Option Int :=
  if now + d < minUtcSecs ∨ now + d > maxUtcSecs then none else some (now + d)

/-- `Capability::new` (capability.rs lines 201-223). The generated uuid and
`Utc::now()` are explicit parameters `id` and `now`. The source computes
`now + chrono::Duration::from_std(ttl).unwrap()`, which can panic twice
over: the `.unwrap()` panics when `from_std` fails (ttl beyond `i64::MAX`
milliseconds), and the addition panics when `now + ttl` leaves the
representable datetime range. Both panics are modelled as `none`; the
constructor returns `Self` and has no error channel at all. -/
def Capability.new (domain : Domain) (action : Action) (target : String)
    (context : CapabilityContext) (ttl : Nat) (issuer subject : String)
    (id : String) (now : Int) : Option Capability :=
  match durationFromStd ttl with
  | none => none
  | some d =>
    match datetimeAdd now d with
    | none => none
    | some expiry =>
      some { id := id
             domain := domain
             action := action
             target := target
             context := context
             issued_at := now
             expires_at := expiry
             issuer := issuer
             subject := subject
             signature := [] }

/-- Rust `str::to_lowercase` modelled as per-character lowercasing of the
string's characters (`Char.toLower` is ASCII-only where Rust's
`to_lowercase` is full Unicode; every name the parser compares against is
ASCII). -/
def toLowerStr (s : String) : String :=
  String.mk (s.data.map Char.toLower)

/-- Rust `str::starts_with` on strings, via the character list. -/
def startsWithStr (s pre : String) : Bool :=
  pre.data.isPrefixOf s.data

/-- Rust byte slicing `&s[n..]` for an ASCII prefix of length `n`, as a
character drop (the only use site slices off `"custom:"`, seven one-byte
characters). -/
def dropStr (s : String) (n : Nat) : String :=
  String.mk (s.data.drop n)

/-- `Domain::parse` (capability.rs lines 388-405): lowercases the input,
matches the ten fixed names, then the `custom:` prefix (tested on — and the
suffix taken from — the lowercased string), else `InvalidDomain`. -/
def Domain.parse (s : String) : Except VaultError Domain :=
  let l := toLowerStr s
  if l = "database" then Except.ok Domain.Database
  else if l = "tls" then Except.ok Domain.Tls
  else if l = "smtp" then Except.ok Domain.Smtp
  else if l = "imap" then Except.ok Domain.Imap
  else if l = "docker" then Except.ok Domain.Docker
  else if l = "git" then Except.ok Domain.Git
  else if l = "filesystem" then Except.ok Domain.Filesystem
  else if l = "cloud" then Except.ok Domain.Cloud
  else if l = "api" then Except.ok Domain.Api
  else if l = "ssh" then Except.ok Domain.Ssh
  else if startsWithStr l "custom:" then Except.ok (Domain.Custom (dropStr l 7))
  else Except.error (VaultError.Capability (CapabilityError.InvalidDomain s))

/-- `Action::parse` (capability.rs lines 418-433): same shape as
`Domain.parse` over the eight fixed action names. -/
def Action.parse (s : String) : Except VaultError Action :=
  let l := toLowerStr s
  if l = "read" then Except.ok Action.Read
  else if l = "write" then Except.ok Action.Write
  else if l = "delete" then Except.ok Action.Delete
  else if l = "execute" then Except.ok Action.Execute
  else if l = "list" then Except.ok Action.List
  else if l = "admin" then Except.ok Action.Admin
  else if l = "create" then Except.ok Action.Create
  else if l = "update" then Except.ok Action.Update
  else if startsWithStr l "custom:" then Except.ok (Action.Custom (dropStr l 7))
  else Except.error (VaultError.Capability (CapabilityError.InvalidAction s))

/-! ### Client capability store (client.rs)

The client's capability cache is
`Arc<RwLock<HashMap<Uuid, Capability>>>`; its value between operations is
modelled as an association list with the `HashMap` operations used by the
client. Remote (transport) calls are external collaborators: their outcome
is an explicit parameter. -/

/-- State of the client's capability cache: identifier-keyed map of
outstanding tokens, modelled as an association list. -/
abbrev CapMap := List (String × Capability)

/-- `HashMap::get` (by-key lookup, returning a snapshot). -/
def lookupCap (m : CapMap) (id : String) : Option Capability :=
  (m.find? (fun p => p.1 == id)).map Prod.snd

/-- `HashMap::remove` for key `id`: afterward no entry with that key
remains. -/
def removeCap (m : CapMap) (id : String) : CapMap :=
  m.filter (fun p => p.1 != id)

/-- `Client::revoke_capability` (client.rs lines 146-155): removes the
entry from the local cache first, then issues the remote revoke call and
returns its outcome. The remote call's result `remote` is a parameter
(transport is external); the returned state is the already-pruned cache
regardless of `remote`. -/
def Client.revoke_capability (m : CapMap) (id : String)
    (remote : Except VaultError Unit) : CapMap × Except VaultError Unit :=
  (removeCap m id, remote)

/-- `Client::list_capabilities` (client.rs lines 158-169): snapshots of all
cached tokens for which `is_valid` holds, with `Utc::now()` as the explicit
parameter `now`. -/
def Client.list_capabilities (m : CapMap) (now : Int) : List Capability :=
  (m.map Prod.snd).filter (fun c => c.is_valid now)

/-! ### Serialization (capability.rs lines 324-332)

`Capability::to_bytes` is `serde_json::to_vec(self)` and
`Capability::from_bytes` is `serde_json::from_slice(data)`, over the
`#[derive(Serialize, Deserialize)]` instances of the token structs. The
wire value is modelled as a JSON tree (`serde_json`'s value model); the
final text/byte layer is `serde_json`'s own injective printing/parsing and
carries no information of this crate. Scalar leaves (timestamps, durations,
uuids) are rendered with their model types; enum values follow serde's
externally-tagged encoding with `rename_all = "lowercase"`. -/

/-- JSON value tree standing for the `serde_json` wire value. -/
inductive Json where
  | null
  | bool (b : Bool)
  | num (n : Int)
  | str (s : String)
  | arr (items : List Json)
  | obj (fields : List (String × Json))

/-- Serialization of `Option<HashSet<String>>`: `None` is JSON `null`,
`Some` is a JSON array — an empty set stays a present-but-empty array. -/
def encodeOptStrSet : Option (List String) → Json
  | none => Json.null
  | some l => Json.arr (l.map Json.str)

/-- Serialization of a nonnegative integer field (`u8`/`u32`). -/
def encodeNat (n : Nat) : Json :=
  Json.num (n : Int)

/-- Serialization of `Option<u32>`. -/
def encodeOptNat : Option Nat → Json
  | none => Json.null
  | some n => encodeNat n

/-- Serialization of `Option<Vec<u8>>`-style weekday lists. -/
def encodeOptNatList : Option (List Nat) → Json
  | none => Json.null
  | some l => Json.arr (l.map encodeNat)

/-- Serialization of `Option<(u32, Duration)>`: a Rust tuple serializes as
a two-element JSON array. -/
def encodeOptPair : Option (Nat × Int) → Json
  | none => Json.null
  | some (n, d) => Json.arr [encodeNat n, Json.num d]

/-- Derived `Serialize` for `Domain` (externally tagged,
`rename_all = "lowercase"`): unit variants are bare lowercase strings, the
newtype variant is `{"custom": name}`. -/
def encodeDomain : Domain → Json
  | Domain.Database => Json.str "database"
  | Domain.Tls => Json.str "tls"
  | Domain.Smtp => Json.str "smtp"
  | Domain.Imap => Json.str "imap"
  | Domain.Docker => Json.str "docker"
  | Domain.Git => Json.str "git"
  | Domain.Filesystem => Json.str "filesystem"
  | Domain.Cloud => Json.str "cloud"
  | Domain.Api => Json.str "api"
  | Domain.Ssh => Json.str "ssh"
  | Domain.Custom name => Json.obj [("custom", Json.str name)]

/-- Derived `Serialize` for `Action` (same encoding scheme as `Domain`). -/
def encodeAction : Action → Json
  | Action.Read => Json.str "read"
  | Action.Write => Json.str "write"
  | Action.Delete => Json.str "delete"
  | Action.Execute => Json.str "execute"
  | Action.List => Json.str "list"
  | Action.Admin => Json.str "admin"
  | Action.Create => Json.str "create"
  | Action.Update => Json.str "update"
  | Action.Custom name => Json.obj [("custom", Json.str name)]

/-- Derived `Serialize` for `TimeWindow`. -/
def encodeTimeWindow (tw : TimeWindow) : Json :=
  Json.obj [("start", Json.num tw.start),
            ("end", Json.num tw.end_),
            ("days_of_week", encodeOptNatList tw.days_of_week)]

/-- Derived `Serialize` for `UsageLimits`. -/
def encodeUsageLimits (ul : UsageLimits) : Json :=
  Json.obj [("max_uses", encodeOptNat ul.max_uses),
            ("uses_per_window", encodeOptPair ul.uses_per_window),
            ("current_uses", encodeNat ul.current_uses)]

/-- Serialization of `Option<TimeWindow>`. -/
def encodeOptTimeWindow : Option TimeWindow → Json
  | none => Json.null
  | some tw => encodeTimeWindow tw

/-- Serialization of `Option<UsageLimits>`. -/
def encodeOptUsageLimits : Option UsageLimits → Json
  | none => Json.null
  | some ul => encodeUsageLimits ul

/-- Derived `Serialize` for `CapabilityContext`. -/
def encodeContext (ctx : CapabilityContext) : Json :=
  Json.obj [("environments", encodeOptStrSet ctx.environments),
            ("services", encodeOptStrSet ctx.services),
            ("namespaces", encodeOptStrSet ctx.namespaces),
            ("ip_constraints", encodeOptStrSet ctx.ip_constraints),
            ("time_window", encodeOptTimeWindow ctx.time_window),
            ("usage_limits", encodeOptUsageLimits ctx.usage_limits)]

/-- Derived `Serialize` for `Capability` (fields in declaration order, as
serde emits them). -/
def encodeCapability (c : Capability) : Json :=
  Json.obj [("id", Json.str c.id),
            ("domain", encodeDomain c.domain),
            ("action", encodeAction c.action),
            ("target", Json.str c.target),
            ("context", encodeContext c.context),
            ("issued_at", Json.num c.issued_at),
            ("expires_at", Json.num c.expires_at),
            ("issuer", Json.str c.issuer),
            ("subject", Json.str c.subject),
            ("signature", Json.arr (c.signature.map encodeNat))]

/-- Deserialization of one string. -/
def decodeStr : Json → Option String
  | Json.str s => some s
  | _ => none

/-- Deserialization of one signed integer. -/
def decodeInt : Json → Option Int
  | Json.num n => some n
  | _ => none

/-- Deserialization of one nonnegative integer (`u8`/`u32`): negative
numbers are rejected, as serde's range check does. -/
def decodeNat : Json → Option Nat
  | Json.num n => if n < 0 then none else some n.toNat
  | _ => none

/-- Deserialization of a JSON array of strings. -/
def decodeStrList : List Json → Option (List String)
  | [] => some []
  | j :: rest =>
    match decodeStr j, decodeStrList rest with
    | some s, some l => some (s :: l)
    | _, _ => none

/-- Deserialization of a JSON array of nonnegative integers. -/
def decodeNatList : List Json → Option (List Nat)
  | [] => some []
  | j :: rest =>
    match decodeNat j, decodeNatList rest with
    | some n, some l => some (n :: l)
    | _, _ => none

/-- Deserialization of `Option<HashSet<String>>`: `null` gives the absent
set, an array gives the present set (possibly empty). -/
def decodeOptStrSet : Json → Option (Option (List String))
  | Json.null => some none
  | Json.arr items => (decodeStrList items).map some
  | _ => none

/-- Deserialization of `Option<u32>`. -/
def decodeOptNat : Json → Option (Option Nat)
  | Json.null => some none
  | j => (decodeNat j).map some

/-- Deserialization of an optional weekday list. -/
def decodeOptNatList : Json → Option (Option (List Nat))
  | Json.null => some none
  | Json.arr items => (decodeNatList items).map some
  | _ => none

/-- Deserialization of `Option<(u32, Duration)>`. -/
def decodeOptPair : Json → Option (Option (Nat × Int))
  | Json.null => some none
  | Json.arr [a, b] => do
    let n ← decodeNat a
    let d ← decodeInt b
    some (some (n, d))
  | _ => none

/-- Derived `Deserialize` for `Domain`. -/
def decodeDomain : Json → Option Domain
  | Json.str s =>
    if s = "database" then some Domain.Database
    else if s = "tls" then some Domain.Tls
    else if s = "smtp" then some Domain.Smtp
    else if s = "imap" then some Domain.Imap
    else if s = "docker" then some Domain.Docker
    else if s = "git" then some Domain.Git
    else if s = "filesystem" then some Domain.Filesystem
    else if s = "cloud" then some Domain.Cloud
    else if s = "api" then some Domain.Api
    else if s = "ssh" then some Domain.Ssh
    else none
  | Json.obj [(tag, v)] =>
    if tag = "custom" then (decodeStr v).map Domain.Custom else none
  | _ => none

/-- Derived `Deserialize` for `Action`. -/
def decodeAction : Json → Option Action
  | Json.str s =>
    if s = "read" then some Action.Read
    else if s = "write" then some Action.Write
    else if s = "delete" then some Action.Delete
    else if s = "execute" then some Action.Execute
    else if s = "list" then some Action.List
    else if s = "admin" then some Action.Admin
    else if s = "create" then some Action.Create
    else if s = "update" then some Action.Update
    else none
  | Json.obj [(tag, v)] =>
    if tag = "custom" then (decodeStr v).map Action.Custom else none
  | _ => none

/-- Derived `Deserialize` for `TimeWindow` (field lookup specialised to the
serializer's field order). -/
def decodeTimeWindow : Json → Option TimeWindow
  | Json.obj [("start", s), ("end", e), ("days_of_week", d)] => do
    let sv ← decodeInt s
    let ev ← decodeInt e
    let dv ← decodeOptNatList d
    some { start := sv, end_ := ev, days_of_week := dv }
  | _ => none

/-- Derived `Deserialize` for `UsageLimits`. -/
def decodeUsageLimits : Json → Option UsageLimits
  | Json.obj [("max_uses", m), ("uses_per_window", u), ("current_uses", c)] => do
    let mv ← decodeOptNat m
    let uv ← decodeOptPair u
    let cv ← decodeNat c
    some { max_uses := mv, uses_per_window := uv, current_uses := cv }
  | _ => none

/-- Deserialization of `Option<TimeWindow>`. -/
def decodeOptTimeWindow : Json → Option (Option TimeWindow)
  | Json.null => some none
  | j => (decodeTimeWindow j).map some

/-- Deserialization of `Option<UsageLimits>`. -/
def decodeOptUsageLimits : Json → Option (Option UsageLimits)
  | Json.null => some none
  | j => (decodeUsageLimits j).map some

/-- Derived `Deserialize` for `CapabilityContext`. -/
def decodeContext : Json → Option CapabilityContext
  | Json.obj [("environments", e), ("services", s), ("namespaces", n),
              ("ip_constraints", ip), ("time_window", tw), ("usage_limits", ul)] => do
    let ev ← decodeOptStrSet e
    let sv ← decodeOptStrSet s
    let nv ← decodeOptStrSet n
    let ipv ← decodeOptStrSet ip
    let twv ← decodeOptTimeWindow tw
    let ulv ← decodeOptUsageLimits ul
    some { environments := ev, services := sv, namespaces := nv,
           ip_constraints := ipv, time_window := twv, usage_limits := ulv }
  | _ => none

/-- Derived `Deserialize` for `Capability`. -/
def decodeCapability : Json → Option Capability
  | Json.obj [("id", i), ("domain", d), ("action", a), ("target", t),
              ("context", cx), ("issued_at", ia), ("expires_at", ea),
              ("issuer", isr), ("subject", sub), ("signature", sig)] => do
    let iv ← decodeStr i
    let dv ← decodeDomain d
    let av ← decodeAction a
    let tv ← decodeStr t
    let cxv ← decodeContext cx
    let iav ← decodeInt ia
    let eav ← decodeInt ea
    let isrv ← decodeStr isr
    let subv ← decodeStr sub
    let sigv ← match sig with
      | Json.arr items => decodeNatList items
      | _ => none
    some { id := iv, domain := dv, action := av, target := tv, context := cxv,
           issued_at := iav, expires_at := eav, issuer := isrv,
           subject := subv, signature := sigv }
  | _ => none

/-- `Capability::to_bytes` (capability.rs lines 325-327):
`serde_json::to_vec(self)` mapped into the crate's `Result`. Serialization
of this type cannot fail (`serde_json` errors only on shapes such as
non-string map keys), so the result is always `ok`. -/
def Capability.to_bytes (c : Capability) : Except VaultError Json :=
  Except.ok (encodeCapability c)

/-- `Capability::from_bytes` (capability.rs lines 330-332):
`serde_json::from_slice(data)`, with a failed parse mapped to
`CapabilityError::InvalidFormat` (the source embeds serde's error text in
the message; the model uses a fixed message). -/
def Capability.from_bytes (data : Json) : Except VaultError Capability :=
  match decodeCapability data with
  | some c => Except.ok c
  | none => Except.error (VaultError.Capability
      (CapabilityError.InvalidFormat "malformed capability encoding"))

/-! ### Round-trip lemmas for the serialization model -/

theorem decodeStrList_encode (l : List String) :
    decodeStrList (l.map Json.str) = some l := by
  induction l with
  | nil => rfl
  | cons s rest ih => simp [decodeStrList, decodeStr, ih]

theorem decodeNat_encode (n : Nat) : decodeNat (encodeNat n) = some n := by
  simp [decodeNat, encodeNat]

theorem decodeNatList_encode (l : List Nat) :
    decodeNatList (l.map encodeNat) = some l := by
  induction l with
  | nil => rfl
  | cons n rest ih => simp [decodeNatList, decodeNat_encode, ih]

theorem decodeOptStrSet_encode (o : Option (List String)) :
    decodeOptStrSet (encodeOptStrSet o) = some o := by
  cases o with
  | none => rfl
  | some l => simp [encodeOptStrSet, decodeOptStrSet, decodeStrList_encode]

theorem decodeOptNat_encode (o : Option Nat) :
    decodeOptNat (encodeOptNat o) = some o := by
  cases o with
  | none => rfl
  | some n => simp [encodeOptNat, encodeNat, decodeOptNat, decodeNat]

theorem decodeOptNatList_encode (o : Option (List Nat)) :
    decodeOptNatList (encodeOptNatList o) = some o := by
  cases o with
  | none => rfl
  | some l => simp [encodeOptNatList, decodeOptNatList, decodeNatList_encode]

theorem decodeOptPair_encode (o : Option (Nat × Int)) :
    decodeOptPair (encodeOptPair o) = some o := by
  cases o with
  | none => rfl
  | some p =>
    obtain ⟨n, d⟩ := p
    simp [encodeOptPair, decodeOptPair, decodeNat_encode, decodeInt]

theorem decodeDomain_encode (d : Domain) :
    decodeDomain (encodeDomain d) = some d := by
  cases d <;> simp [encodeDomain, decodeDomain, decodeStr]

theorem decodeAction_encode (a : Action) :
    decodeAction (encodeAction a) = some a := by
  cases a <;> simp [encodeAction, decodeAction, decodeStr]

theorem decodeTimeWindow_encode (tw : TimeWindow) :
    decodeTimeWindow (encodeTimeWindow tw) = some tw := by
  simp [encodeTimeWindow, decodeTimeWindow, decodeInt, decodeOptNatList_encode]

theorem decodeUsageLimits_encode (ul : UsageLimits) :
    decodeUsageLimits (encodeUsageLimits ul) = some ul := by
  simp [encodeUsageLimits, decodeUsageLimits, decodeOptNat_encode, decodeOptPair_encode,
    decodeNat_encode]

theorem decodeOptTimeWindow_encode (o : Option TimeWindow) :
    decodeOptTimeWindow (encodeOptTimeWindow o) = some o := by
  cases o with
  | none => rfl
  | some tw => simp [encodeOptTimeWindow, encodeTimeWindow, decodeOptTimeWindow,
      decodeTimeWindow, decodeInt, decodeOptNatList_encode]

theorem decodeOptUsageLimits_encode (o : Option UsageLimits) :
    decodeOptUsageLimits (encodeOptUsageLimits o) = some o := by
  cases o with
  | none => rfl
  | some ul => simp [encodeOptUsageLimits, encodeUsageLimits, decodeOptUsageLimits,
      decodeUsageLimits, decodeOptNat_encode, decodeOptPair_encode, decodeNat_encode]

theorem decodeContext_encode (ctx : CapabilityContext) :
    decodeContext (encodeContext ctx) = some ctx := by
  simp [encodeContext, decodeContext, decodeOptStrSet_encode, decodeOptTimeWindow_encode,
    decodeOptUsageLimits_encode]

set_option maxHeartbeats 1600000 in
theorem decodeCapability_encode (c : Capability) :
    decodeCapability (encodeCapability c) = some c := by
  simp [encodeCapability, decodeCapability, decodeStr, decodeInt, decodeDomain_encode,
    decodeAction_encode, decodeContext_encode, decodeNatList_encode]

/-! ### Concrete tokens used by counterexamples and witnesses -/

/-- Context with every constraint absent. -/
def ctxFree : CapabilityContext :=
  { environments := none, services := none, namespaces := none,
    ip_constraints := none, time_window := none, usage_limits := none }

/-- Unconstrained token expiring at instant 100. -/
def capPlain : Capability :=
  { id := "cap-plain", domain := Domain.Database, action := Action.Read,
    target := "users", context := ctxFree, issued_at := 0, expires_at := 100,
    issuer := "vault", subject := "api-service", signature := [] }

/-! ### Claims -/

/-- C1, counterexample. The claim asserts `IsValid` is false when `now`
equals `expires_at` exactly; the code's expiry test is the strict
`now > self.expires_at` (capability.rs line 230), so the unconstrained
token `capPlain` with `expires_at = 100` is still valid at `now = 100`. -/
theorem is_valid_at_exact_expiry_counterexample :
    capPlain.context.time_window = none ∧ capPlain.context.usage_limits = none ∧
    capPlain.expires_at = 100 ∧ capPlain.is_valid 100 = true := by
  refine ⟨rfl, rfl, rfl, ?_⟩
  decide

/-- C1 (amended): for a token with no time window and no usage limits,
`is_valid` at `now` is true for every `now` at or before `expires_at` and
false for every `now` strictly after `expires_at` (the boundary instant
`now = expires_at` is still valid). -/
theorem is_valid_unconstrained_iff (c : Capability) (now : Int)
    (htw : c.context.time_window = none) (hul : c.context.usage_limits = none) :
    c.is_valid now = true ↔ now ≤ c.expires_at := by
  by_cases h : now > c.expires_at <;>
    simp [Capability.is_valid, h, htw, usageGate, hul] <;> omega

/-- C1 witness: the amended theorem applied to `capPlain` at `now = 100`,
the exact expiry instant. -/
theorem is_valid_unconstrained_iff_witness :
    capPlain.is_valid 100 = true ↔ (100 : Int) ≤ capPlain.expires_at :=
  is_valid_unconstrained_iff capPlain 100 rfl rfl

/-- C3: `is_valid_for_context` returns true iff `is_valid` holds and, for
each of the environments/services/namespaces dimensions independently, the
constraint set is absent or contains the supplied value (so a present but
empty set makes the dimension impossible to satisfy, and an absent set
accepts every value). -/
theorem is_valid_for_context_characterization (c : Capability)
    (environment service namespc : String) (now : Int) :
    c.is_valid_for_context environment service namespc now = true ↔
      (c.is_valid now = true ∧
       (∀ es, c.context.environments = some es → environment ∈ es) ∧
       (∀ ss, c.context.services = some ss → service ∈ ss) ∧
       (∀ ns, c.context.namespaces = some ns → namespc ∈ ns)) := by
  rcases he : c.context.environments with _ | es <;>
    rcases hs : c.context.services with _ | ss <;>
    rcases hn : c.context.namespaces with _ | ns <;>
    simp [Capability.is_valid_for_context, he, hs, hn, and_assoc]

/-- C4: for an unexpired token (`now ≤ expires_at`), `is_valid` holds iff
every present constraint passes and absent constraints are permissive: a
present time window requires `start ≤ now ≤ end` and, when it lists
weekdays, membership of `now`'s weekday (0 = Sunday); present usage limits
with a `max_uses` require `current_uses < max_uses` (so `current_uses ≥
max_uses` is already invalid). With no window and no limits the right-hand
side is vacuous and the token is valid. -/
theorem is_valid_characterization (c : Capability) (now : Int)
    (h : now ≤ c.expires_at) :
    c.is_valid now = true ↔
      ((∀ tw, c.context.time_window = some tw →
          tw.start ≤ now ∧ now ≤ tw.end_ ∧
          ∀ days, tw.days_of_week = some days → num_days_from_sunday now ∈ days) ∧
       (∀ ul, c.context.usage_limits = some ul → ∀ m, ul.max_uses = some m →
          ul.current_uses < m)) := by
  have hne : ¬ now > c.expires_at := by omega
  rcases htw : c.context.time_window with _ | tw
  · rcases hul : c.context.usage_limits with _ | ul
    · simp [Capability.is_valid, hne, htw, usageGate, hul]
    · rcases hm : ul.max_uses with _ | m <;>
        simp [Capability.is_valid, hne, htw, usageGate, hul, hm, forall_eq']
  · rcases hd : tw.days_of_week with _ | days <;>
      rcases hul : c.context.usage_limits with _ | ul
    · simp [Capability.is_valid, hne, htw, hd, usageGate, hul, and_assoc]
    · rcases hm : ul.max_uses with _ | m <;>
        simp [Capability.is_valid, hne, htw, hd, usageGate, hul, hm, forall_eq',
          and_assoc]
    · simp [Capability.is_valid, hne, htw, hd, usageGate, hul, and_assoc]
    · rcases hm : ul.max_uses with _ | m <;>
        simp [Capability.is_valid, hne, htw, hd, usageGate, hul, hm, forall_eq',
          and_assoc]

/-- Usage limits allowing five uses, one already recorded. -/
def ulWindowed : UsageLimits :=
  { max_uses := some 5, uses_per_window := none, current_uses := 1 }

/-- Window covering instants 0-200, Thursdays and Fridays only. -/
def twWindowed : TimeWindow :=
  { start := 0, end_ := 200, days_of_week := some [4, 5] }

/-- Token constrained by `twWindowed` and `ulWindowed`. -/
def capWindowed : Capability :=
  { capPlain with
    id := "cap-window"
    context := { ctxFree with
      time_window := some twWindowed
      usage_limits := some ulWindowed } }

/-- C4 witness: the characterization applied to `capWindowed` at `now = 50`
(a Thursday, inside the window, below the usage cap). -/
theorem is_valid_characterization_witness :
    (50 : Int) ≤ capWindowed.expires_at ∧
    (capWindowed.is_valid 50 = true ↔
      ((∀ tw, capWindowed.context.time_window = some tw →
          tw.start ≤ 50 ∧ (50 : Int) ≤ tw.end_ ∧
          ∀ days, tw.days_of_week = some days → num_days_from_sunday 50 ∈ days) ∧
       (∀ ul, capWindowed.context.usage_limits = some ul → ∀ m, ul.max_uses = some m →
          ul.current_uses < m))) :=
  ⟨by decide, is_valid_characterization capWindowed 50 (by decide)⟩

/-- C2: with usage limits carrying a `max_uses = m`, `increment_usage`
always advances `current_uses` by exactly one; it succeeds when the
post-increment value is at most `m` and fails with the
`ScopeMismatch "Usage limit exceeded"` error when it exceeds `m`, the
increment being committed either way. Without usage limits the call is a
no-op success. With `max_uses = 2` and a fresh counter, the first two calls
succeed, the third fails, and the counter then reads exactly 3. -/
theorem increment_usage_spec :
    (∀ (c : Capability) (ul : UsageLimits) (m : Nat),
      c.context.usage_limits = some ul → ul.max_uses = some m →
      c.increment_usage =
        (if ul.current_uses + 1 > m then
           Except.error (VaultError.Capability
             (CapabilityError.ScopeMismatch "Usage limit exceeded"))
         else Except.ok (),
         { c with context := { c.context with
             usage_limits := some { ul with current_uses := ul.current_uses + 1 } } })) ∧
    (∀ (c : Capability), c.context.usage_limits = none →
      c.increment_usage = (Except.ok (), c)) ∧
    (∀ (c : Capability) (upw : Option (Nat × Int)),
      c.context.usage_limits =
        some { max_uses := some 2, uses_per_window := upw, current_uses := 0 } →
      (c.increment_usage.1 = Except.ok () ∧
       (c.increment_usage.2.increment_usage).1 = Except.ok () ∧
       (c.increment_usage.2.increment_usage).2.increment_usage.1 =
         Except.error (VaultError.Capability
           (CapabilityError.ScopeMismatch "Usage limit exceeded")) ∧
       ∀ (ul3 : UsageLimits),
         (c.increment_usage.2.increment_usage).2.increment_usage.2.context.usage_limits =
           some ul3 → ul3.current_uses = 3)) := by
  refine ⟨?_, ?_, ?_⟩
  · intro c ul m hul hm
    by_cases hc : ul.current_uses + 1 > m <;>
      simp [Capability.increment_usage, hul, hm, hc]
  · intro c hul
    simp [Capability.increment_usage, hul]
  · intro c upw hul
    refine ⟨?_, ?_, ?_, ?_⟩ <;>
      simp [Capability.increment_usage, hul, forall_eq']

/-- Usage limits with `max_uses = 2` and a fresh counter. -/
def ulTwo : UsageLimits :=
  { max_uses := some 2, uses_per_window := none, current_uses := 0 }

/-- Token carrying `ulTwo` and no other constraint. -/
def capUsage : Capability :=
  { capPlain with
    id := "cap-usage"
    context := { ctxFree with usage_limits := some ulTwo } }

/-- C2 witness: one recorded use on `capUsage` succeeds and advances the
counter to 1, and the third consecutive use fails with the usage-limit
error. -/
theorem increment_usage_spec_witness :
    capUsage.increment_usage =
      (Except.ok (), { capUsage with context := { capUsage.context with
        usage_limits := some { ulTwo with current_uses := 1 } } }) ∧
    (capUsage.increment_usage.2.increment_usage).2.increment_usage.1 =
      Except.error (VaultError.Capability
        (CapabilityError.ScopeMismatch "Usage limit exceeded")) := by
  constructor
  · have h := increment_usage_spec.1 capUsage ulTwo 2 rfl rfl
    simpa using h
  · exact (increment_usage_spec.2.2 capUsage none rfl).2.2.1

/-- Looking up a key in a map from which that key was just removed finds
nothing. -/
theorem lookupCap_removeCap (m : CapMap) (id : String) :
    lookupCap (removeCap m id) id = none := by
  induction m with
  | nil => rfl
  | cons p rest ih =>
    by_cases h : p.1 = id <;>
      simp [removeCap, lookupCap, List.filter_cons, h] at ih ⊢

/-- Every entry surviving `removeCap m id` is an entry of `m` whose key is
not `id`. -/
theorem mem_removeCap (m : CapMap) (id : String) (p : String × Capability)
    (hp : p ∈ removeCap m id) : p ∈ m ∧ p.1 ≠ id := by
  have h := List.mem_filter.1 hp
  refine ⟨h.1, ?_⟩
  simpa using h.2

/-- C5: after `revoke_capability`, and regardless of whether the remote
revoke call succeeds or fails, the local store no longer yields the token:
lookup of the identifier finds nothing and `list_capabilities` never
returns a token with that identifier (whatever `now` is, so in particular
before expiry); the returned outcome is exactly the remote call's, and the
post-revoke store does not depend on that outcome (the removal happens
first). The hypothesis states the store's keying discipline: every entry is
stored under its token's identifier, as all insertion sites do. -/
theorem revoke_capability_removes_locally (m : CapMap) (id : String)
    (remote : Except VaultError Unit) (now : Int)
    (hwf : ∀ p ∈ m, (Prod.snd p).id = p.1) :
    lookupCap (Client.revoke_capability m id remote).1 id = none ∧
    (∀ c ∈ Client.list_capabilities (Client.revoke_capability m id remote).1 now,
       c.id ≠ id) ∧
    (Client.revoke_capability m id remote).2 = remote ∧
    (∀ remote2, (Client.revoke_capability m id remote2).1 =
       (Client.revoke_capability m id remote).1) := by
  refine ⟨lookupCap_removeCap m id, ?_, rfl, fun _ => rfl⟩
  intro c hc
  have hc1 := (List.mem_filter.1 hc).1
  obtain ⟨p, hp, hpc⟩ := List.mem_map.1 hc1
  obtain ⟨hpm, hpk⟩ := mem_removeCap m id p hp
  rw [← hpc, hwf p hpm]
  exact hpk

/-- C5 witness: revoking `capPlain`'s identifier out of a singleton store
while the remote call fails with a transport error. -/
theorem revoke_capability_removes_locally_witness :
    lookupCap (Client.revoke_capability [("cap-plain", capPlain)] "cap-plain"
      (Except.error (VaultError.Transport "connection refused"))).1 "cap-plain" = none ∧
    (∀ c ∈ Client.list_capabilities (Client.revoke_capability [("cap-plain", capPlain)]
       "cap-plain" (Except.error (VaultError.Transport "connection refused"))).1 50,
       c.id ≠ "cap-plain") ∧
    (Client.revoke_capability [("cap-plain", capPlain)] "cap-plain"
      (Except.error (VaultError.Transport "connection refused"))).2 =
      Except.error (VaultError.Transport "connection refused") ∧
    (∀ remote2, (Client.revoke_capability [("cap-plain", capPlain)] "cap-plain" remote2).1 =
      (Client.revoke_capability [("cap-plain", capPlain)] "cap-plain"
        (Except.error (VaultError.Transport "connection refused"))).1) :=
  revoke_capability_removes_locally [("cap-plain", capPlain)] "cap-plain"
    (Except.error (VaultError.Transport "connection refused")) 50 (by decide)

/-- C6: deserializing the serialized form of any capability succeeds and
returns a token equal to the original on every field — in particular the
`Option`-level distinction between an absent constraint set (`null` on the
wire) and a present-but-empty one (an empty array) survives the round
trip. -/
theorem capability_roundtrip (c : Capability) :
    c.to_bytes.bind Capability.from_bytes = Except.ok c := by
  simp [Capability.to_bytes, Capability.from_bytes, Except.bind, decodeCapability_encode]

/-- C7, counterexample. The claim asserts every failure of
`Capability::new` is reported as an `InvalidFormat` error; but the
constructor's return type is `Self` — it has no error channel — and both
failure modes are panics (modelled as `none`): at a ttl of
9223372036854776 s (whose millisecond count just exceeds `i64::MAX`) the
`.unwrap()` on `Duration::from_std` panics, and at a ttl of
9000000000000 s (within `from_std`'s bound) minted at instant 0 the
addition `now + duration` leaves the representable datetime range and
panics. In neither case is an error value of any kind produced. -/
theorem capability_new_overflow_counterexample :
    Capability.new Domain.Database Action.Read "users" ctxFree 9223372036854776
      "vault" "api-service" "cap-overflow" 0 = none ∧
    (9000000000000 : Nat) * 1000 ≤ 9223372036854775807 ∧
    Capability.new Domain.Database Action.Read "users" ctxFree 9000000000000
      "vault" "api-service" "cap-overflow" 0 = none := by
  refine ⟨by decide, by decide, by decide⟩

/-- C7 (amended): `Capability::new` sets `issued_at` to the supplied
current instant, `expires_at` to `issued_at + ttl` (computed once), leaves
the signature empty and otherwise copies its arguments (the fresh uuid is
the `id` parameter); it fails exactly when the TTL arithmetic overflows —
either the ttl exceeds `chrono::Duration`'s range of `i64::MAX`
milliseconds (the `from_std` unwrap) or `issued_at + ttl` leaves chrono's
representable datetime range (the addition's overflow panic) — and each
failure is a panic, not a returned `InvalidFormat` error. -/
theorem capability_new_spec (domain : Domain) (action : Action) (target : String)
    (context : CapabilityContext) (ttl : Nat) (issuer subject id : String) (now : Int) :
    (ttl * 1000 ≤ 9223372036854775807 →
      minUtcSecs ≤ now + (ttl : Int) →
      now + (ttl : Int) ≤ maxUtcSecs →
      Capability.new domain action target context ttl issuer subject id now =
        some { id := id
               domain := domain
               action := action
               target := target
               context := context
               issued_at := now
               expires_at := now + (ttl : Int)
               issuer := issuer
               subject := subject
               signature := [] }) ∧
    (9223372036854775807 < ttl * 1000 →
      Capability.new domain action target context ttl issuer subject id now = none) ∧
    (maxUtcSecs < now + (ttl : Int) →
      Capability.new domain action target context ttl issuer subject id now = none) ∧
    (now + (ttl : Int) < minUtcSecs →
      Capability.new domain action target context ttl issuer subject id now = none) := by
  refine ⟨?_, ?_, ?_, ?_⟩
  · intro h hlo hhi
    have hof : ¬ ttl * 1000 > 9223372036854775807 := by omega
    have hr : ¬ (now + (ttl : Int) < minUtcSecs ∨ now + (ttl : Int) > maxUtcSecs) := by
      omega
    simp [Capability.new, durationFromStd, hof, datetimeAdd, hr]
  · intro h
    simp [Capability.new, durationFromStd, h]
  · intro h
    by_cases hof : ttl * 1000 > 9223372036854775807
    · simp [Capability.new, durationFromStd, hof]
    · have hr : now + (ttl : Int) < minUtcSecs ∨ now + (ttl : Int) > maxUtcSecs :=
        Or.inr h
      simp [Capability.new, durationFromStd, hof, datetimeAdd, hr]
  · intro h
    by_cases hof : ttl * 1000 > 9223372036854775807
    · simp [Capability.new, durationFromStd, hof]
    · have hr : now + (ttl : Int) < minUtcSecs ∨ now + (ttl : Int) > maxUtcSecs :=
        Or.inl h
      simp [Capability.new, durationFromStd, hof, datetimeAdd, hr]

/-- Token produced by `Capability.new` for a 300-second ttl minted at
instant 0. -/
def capNew300 : Capability :=
  { id := "cap-new"
    domain := Domain.Database
    action := Action.Read
    target := "users"
    context := ctxFree
    issued_at := 0
    expires_at := 300
    issuer := "vault"
    subject := "api-service"
    signature := [] }

/-- C7 witness: the amended constructor contract, both on the success path
(a 300-second ttl minted at instant 0, all three side conditions holding)
and on the datetime-range panic path (a ttl of 9000000000000 s, below
`from_std`'s bound but past `maxUtcSecs` when added to instant 0). -/
theorem capability_new_spec_witness :
    ((300 : Nat) * 1000 ≤ 9223372036854775807 ∧
     minUtcSecs ≤ (0 : Int) + ((300 : Nat) : Int) ∧
     (0 : Int) + ((300 : Nat) : Int) ≤ maxUtcSecs) ∧
    Capability.new Domain.Database Action.Read "users" ctxFree 300 "vault"
      "api-service" "cap-new" 0 =
      some { id := "cap-new"
             domain := Domain.Database
             action := Action.Read
             target := "users"
             context := ctxFree
             issued_at := 0
             expires_at := 0 + ((300 : Nat) : Int)
             issuer := "vault"
             subject := "api-service"
             signature := [] } ∧
    (maxUtcSecs < (0 : Int) + ((9000000000000 : Nat) : Int) ∧
     Capability.new Domain.Database Action.Read "users" ctxFree 9000000000000
       "vault" "api-service" "cap-new" 0 = none) :=
  ⟨⟨by decide, by decide, by decide⟩,
   (capability_new_spec Domain.Database Action.Read "users" ctxFree 300 "vault"
     "api-service" "cap-new" 0).1 (by decide) (by decide) (by decide),
   by decide,
   (capability_new_spec Domain.Database Action.Read "users" ctxFree 9000000000000
     "vault" "api-service" "cap-new" 0).2.2.1 (by decide)⟩

/-- Token that `Capability.new` produces for a zero ttl minted at
instant 5: its expiry equals its issuance instant. -/
def capZero : Capability :=
  { id := "cap-zero"
    domain := Domain.Database
    action := Action.Read
    target := "users"
    context := ctxFree
    issued_at := 5
    expires_at := 5
    issuer := "vault"
    subject := "api-service"
    signature := [] }

/-- C8, counterexample. The claim asserts `expires_at > issued_at` for
every token the constructor accepts, including a zero ttl; but `new`
performs no ttl validation (the `10s ≤ ttl` check lives only in
`CapabilityRequest::validate`), so `ttl = 0` is accepted and yields
`expires_at = issued_at`, violating the strict inequality. -/
theorem expiry_invariant_zero_ttl_counterexample :
    Capability.new Domain.Database Action.Read "users" ctxFree 0 "vault"
      "api-service" "cap-zero" 5 = some capZero ∧
    ¬ capZero.issued_at < capZero.expires_at := by
  constructor
  · decide
  · decide

/-- C8 (amended): every token the constructor produces satisfies
`issued_at ≤ expires_at`, strictly whenever the ttl is positive; and
`increment_usage` touches only the usage counter, leaving `issued_at` and
`expires_at` unchanged, hence preserving the strict invariant on any token
that has it. -/
theorem expiry_invariant (domain : Domain) (action : Action) (target : String)
    (context : CapabilityContext) (ttl : Nat) (issuer subject id : String) (now : Int)
    (cap : Capability) (c : Capability) :
    (Capability.new domain action target context ttl issuer subject id now = some cap →
      cap.issued_at ≤ cap.expires_at ∧ (0 < ttl → cap.issued_at < cap.expires_at)) ∧
    (c.increment_usage.2.issued_at = c.issued_at ∧
     c.increment_usage.2.expires_at = c.expires_at) ∧
    (c.issued_at < c.expires_at →
      c.increment_usage.2.issued_at < c.increment_usage.2.expires_at) := by
  have hinc : c.increment_usage.2.issued_at = c.issued_at ∧
      c.increment_usage.2.expires_at = c.expires_at := by
    rcases hul : c.context.usage_limits with _ | ul
    · simp [Capability.increment_usage, hul]
    · rcases hm : ul.max_uses with _ | m
      · simp [Capability.increment_usage, hul, hm]
      · by_cases hc : ul.current_uses + 1 > m <;>
          simp [Capability.increment_usage, hul, hm, hc]
  refine ⟨?_, hinc, ?_⟩
  · intro h
    by_cases hof : ttl * 1000 > 9223372036854775807
    · simp [Capability.new, durationFromStd, hof] at h
    · by_cases hr : now + (ttl : Int) < minUtcSecs ∨ now + (ttl : Int) > maxUtcSecs
      · simp [Capability.new, durationFromStd, hof, datetimeAdd, hr] at h
      · simp [Capability.new, durationFromStd, hof, datetimeAdd, hr] at h
        subst h
        constructor
        · simp
        · intro httl
          simp
          omega
  · intro hlt
    rw [hinc.1, hinc.2]
    exact hlt

/-- C8 witness: the amended invariant at the concrete 300-second token and
at `capUsage` (whose usage counter the accountant advances). -/
theorem expiry_invariant_witness :
    (capNew300.issued_at ≤ capNew300.expires_at ∧
      (0 < 300 → capNew300.issued_at < capNew300.expires_at)) ∧
    (capUsage.issued_at < capUsage.expires_at →
      capUsage.increment_usage.2.issued_at < capUsage.increment_usage.2.expires_at) :=
  ⟨(expiry_invariant Domain.Database Action.Read "users" ctxFree 300 "vault"
      "api-service" "cap-new" 0 capNew300 capUsage).1 (by decide),
   (expiry_invariant Domain.Database Action.Read "users" ctxFree 300 "vault"
      "api-service" "cap-new" 0 capNew300 capUsage).2.2⟩

/-- C9, counterexample. The claim's fixed enumeration lists
`container-registry` and `source-control`, but the parser's names for those
domains are `docker` and `git`, so `container-registry` is rejected with
`InvalidDomain`; and the claim says a `custom:` input keeps the suffix's
original case, but the parser slices the suffix out of the lowercased
string, so `custom:MyAction` parses to `Custom "myaction"`, not
`Custom "MyAction"`. -/
theorem parse_counterexample :
    Domain.parse "container-registry" =
      Except.error (VaultError.Capability
        (CapabilityError.InvalidDomain "container-registry")) ∧
    Action.parse "custom:MyAction" = Except.ok (Action.Custom "myaction") := by
  constructor <;> rfl

/-- C9 (amended): `Domain.parse` accepts exactly the ten fixed names
database, tls, smtp, imap, docker, git, filesystem, cloud, api, ssh —
case-insensitively (any input whose lowercasing equals the name); an input
whose lowercasing starts with `custom:` (so the prefix too is recognized
case-insensitively) yields the `Custom` variant carrying the lowercased
suffix (original case is not preserved); every other input is rejected with
`InvalidDomain` carrying the original string. `Action.parse` behaves the
same over read, write, delete, execute, list, admin, create, update with
`InvalidAction`. -/
theorem parse_spec :
    (∀ s : String, toLowerStr s = "database" → Domain.parse s = Except.ok Domain.Database) ∧
    (∀ s : String, toLowerStr s = "tls" → Domain.parse s = Except.ok Domain.Tls) ∧
    (∀ s : String, toLowerStr s = "smtp" → Domain.parse s = Except.ok Domain.Smtp) ∧
    (∀ s : String, toLowerStr s = "imap" → Domain.parse s = Except.ok Domain.Imap) ∧
    (∀ s : String, toLowerStr s = "docker" → Domain.parse s = Except.ok Domain.Docker) ∧
    (∀ s : String, toLowerStr s = "git" → Domain.parse s = Except.ok Domain.Git) ∧
    (∀ s : String, toLowerStr s = "filesystem" →
      Domain.parse s = Except.ok Domain.Filesystem) ∧
    (∀ s : String, toLowerStr s = "cloud" → Domain.parse s = Except.ok Domain.Cloud) ∧
    (∀ s : String, toLowerStr s = "api" → Domain.parse s = Except.ok Domain.Api) ∧
    (∀ s : String, toLowerStr s = "ssh" → Domain.parse s = Except.ok Domain.Ssh) ∧
    (∀ s : String, startsWithStr (toLowerStr s) "custom:" = true →
      Domain.parse s = Except.ok (Domain.Custom (dropStr (toLowerStr s) 7))) ∧
    (∀ s : String,
      toLowerStr s ∉ ["database", "tls", "smtp", "imap", "docker", "git",
        "filesystem", "cloud", "api", "ssh"] →
      startsWithStr (toLowerStr s) "custom:" = false →
      Domain.parse s =
        Except.error (VaultError.Capability (CapabilityError.InvalidDomain s))) ∧
    (∀ s : String, toLowerStr s = "read" → Action.parse s = Except.ok Action.Read) ∧
    (∀ s : String, toLowerStr s = "write" → Action.parse s = Except.ok Action.Write) ∧
    (∀ s : String, toLowerStr s = "delete" → Action.parse s = Except.ok Action.Delete) ∧
    (∀ s : String, toLowerStr s = "execute" → Action.parse s = Except.ok Action.Execute) ∧
    (∀ s : String, toLowerStr s = "list" → Action.parse s = Except.ok Action.List) ∧
    (∀ s : String, toLowerStr s = "admin" → Action.parse s = Except.ok Action.Admin) ∧
    (∀ s : String, toLowerStr s = "create" → Action.parse s = Except.ok Action.Create) ∧
    (∀ s : String, toLowerStr s = "update" → Action.parse s = Except.ok Action.Update) ∧
    (∀ s : String, startsWithStr (toLowerStr s) "custom:" = true →
      Action.parse s = Except.ok (Action.Custom (dropStr (toLowerStr s) 7))) ∧
    (∀ s : String,
      toLowerStr s ∉ ["read", "write", "delete", "execute", "list", "admin",
        "create", "update"] →
      startsWithStr (toLowerStr s) "custom:" = false →
      Action.parse s =
        Except.error (VaultError.Capability (CapabilityError.InvalidAction s))) := by
  refine ⟨?_, ?_, ?_, ?_, ?_, ?_, ?_, ?_, ?_, ?_, ?_, ?_, ?_, ?_, ?_, ?_, ?_, ?_,
    ?_, ?_, ?_, ?_⟩
  case _ => intro s h; simp [Domain.parse, h]
  case _ => intro s h; simp [Domain.parse, h]
  case _ => intro s h; simp [Domain.parse, h]
  case _ => intro s h; simp [Domain.parse, h]
  case _ => intro s h; simp [Domain.parse, h]
  case _ => intro s h; simp [Domain.parse, h]
  case _ => intro s h; simp [Domain.parse, h]
  case _ => intro s h; simp [Domain.parse, h]
  case _ => intro s h; simp [Domain.parse, h]
  case _ => intro s h; simp [Domain.parse, h]
  case _ =>
    intro s h
    have h1 : toLowerStr s ≠ "database" := fun he => by
      rw [he] at h; exact absurd h (by decide)
    have h2 : toLowerStr s ≠ "tls" := fun he => by
      rw [he] at h; exact absurd h (by decide)
    have h3 : toLowerStr s ≠ "smtp" := fun he => by
      rw [he] at h; exact absurd h (by decide)
    have h4 : toLowerStr s ≠ "imap" := fun he => by
      rw [he] at h; exact absurd h (by decide)
    have h5 : toLowerStr s ≠ "docker" := fun he => by
      rw [he] at h; exact absurd h (by decide)
    have h6 : toLowerStr s ≠ "git" := fun he => by
      rw [he] at h; exact absurd h (by decide)
    have h7 : toLowerStr s ≠ "filesystem" := fun he => by
      rw [he] at h; exact absurd h (by decide)
    have h8 : toLowerStr s ≠ "cloud" := fun he => by
      rw [he] at h; exact absurd h (by decide)
    have h9 : toLowerStr s ≠ "api" := fun he => by
      rw [he] at h; exact absurd h (by decide)
    have h10 : toLowerStr s ≠ "ssh" := fun he => by
      rw [he] at h; exact absurd h (by decide)
    simp [Domain.parse, h, h1, h2, h3, h4, h5, h6, h7, h8, h9, h10]
  case _ =>
    intro s hmem hpre
    simp only [List.mem_cons, List.not_mem_nil, or_false, not_or] at hmem
    obtain ⟨h1, h2, h3, h4, h5, h6, h7, h8, h9, h10⟩ := hmem
    simp [Domain.parse, hpre, h1, h2, h3, h4, h5, h6, h7, h8, h9, h10]
  case _ => intro s h; simp [Action.parse, h]
  case _ => intro s h; simp [Action.parse, h]
  case _ => intro s h; simp [Action.parse, h]
  case _ => intro s h; simp [Action.parse, h]
  case _ => intro s h; simp [Action.parse, h]
  case _ => intro s h; simp [Action.parse, h]
  case _ => intro s h; simp [Action.parse, h]
  case _ => intro s h; simp [Action.parse, h]
  case _ =>
    intro s h
    have h1 : toLowerStr s ≠ "read" := fun he => by
      rw [he] at h; exact absurd h (by decide)
    have h2 : toLowerStr s ≠ "write" := fun he => by
      rw [he] at h; exact absurd h (by decide)
    have h3 : toLowerStr s ≠ "delete" := fun he => by
      rw [he] at h; exact absurd h (by decide)
    have h4 : toLowerStr s ≠ "execute" := fun he => by
      rw [he] at h; exact absurd h (by decide)
    have h5 : toLowerStr s ≠ "list" := fun he => by
      rw [he] at h; exact absurd h (by decide)
    have h6 : toLowerStr s ≠ "admin" := fun he => by
      rw [he] at h; exact absurd h (by decide)
    have h7 : toLowerStr s ≠ "create" := fun he => by
      rw [he] at h; exact absurd h (by decide)
    have h8 : toLowerStr s ≠ "update" := fun he => by
      rw [he] at h; exact absurd h (by decide)
    simp [Action.parse, h, h1, h2, h3, h4, h5, h6, h7, h8]
  case _ =>
    intro s hmem hpre
    simp only [List.mem_cons, List.not_mem_nil, or_false, not_or] at hmem
    obtain ⟨h1, h2, h3, h4, h5, h6, h7, h8⟩ := hmem
    simp [Action.parse, hpre, h1, h2, h3, h4, h5, h6, h7, h8]

/-- C9 witness: a mixed-case fixed name, a mixed-case custom input (whose
suffix comes back lowercased), and a rejected action string. -/
theorem parse_spec_witness :
    Domain.parse "DataBase" = Except.ok Domain.Database ∧
    Domain.parse "CUSTOM:Abc" =
      Except.ok (Domain.Custom (dropStr (toLowerStr "CUSTOM:Abc") 7)) ∧
    Action.parse "invalid" =
      Except.error (VaultError.Capability (CapabilityError.InvalidAction "invalid")) := by
  obtain ⟨hdb, _, _, _, _, _, _, _, _, _, hcust, _, _, _, _, _, _, _, _, _, _,
    harej⟩ := parse_spec
  exact ⟨hdb "DataBase" (by decide), hcust "CUSTOM:Abc" (by decide),
    harej "invalid" (by decide) (by decide)⟩

/-- Modifier replacing the reserved `uses_per_window` field of a token's
usage limits (a no-op when the token has no usage limits, where the field
does not exist). Used to state that the field is dead to the evaluator and
the accountant. -/
def setUsesPerWindow (c : Capability) (x : Option (Nat × Int)) : Capability :=
  match c.context.usage_limits with
  | none => c
  | some ul =>
    { c with context := { c.context with
        usage_limits := some { ul with uses_per_window := x } } }

/-- C10: replacing `uses_per_window` by anything changes neither `is_valid`
nor `is_valid_for_context` nor the outcome of `increment_usage` (whose
updated token differs only by that same replacement); and when usage limits
are present with `max_uses` absent, the evaluator's usage gate passes and
`increment_usage` succeeds while still advancing `current_uses` by one —
there is no bound in that configuration. -/
theorem uses_per_window_unused :
    (∀ (c : Capability) (x : Option (Nat × Int)) (now : Int),
      (setUsesPerWindow c x).is_valid now = c.is_valid now) ∧
    (∀ (c : Capability) (x : Option (Nat × Int)) (environment service namespc : String)
      (now : Int),
      (setUsesPerWindow c x).is_valid_for_context environment service namespc now =
        c.is_valid_for_context environment service namespc now) ∧
    (∀ (c : Capability) (x : Option (Nat × Int)),
      (setUsesPerWindow c x).increment_usage.1 = c.increment_usage.1 ∧
      (setUsesPerWindow c x).increment_usage.2 = setUsesPerWindow c.increment_usage.2 x) ∧
    (∀ (c : Capability) (ul : UsageLimits), c.context.usage_limits = some ul →
      ul.max_uses = none →
      usageGate c = true ∧
      c.increment_usage =
        (Except.ok (), { c with context := { c.context with
           usage_limits := some { ul with current_uses := ul.current_uses + 1 } } })) := by
  have hval : ∀ (c : Capability) (x : Option (Nat × Int)) (now : Int),
      (setUsesPerWindow c x).is_valid now = c.is_valid now := by
    intro c x now
    rcases hul : c.context.usage_limits with _ | ul
    · simp [setUsesPerWindow, hul]
    · simp [setUsesPerWindow, hul, Capability.is_valid, usageGate]
  refine ⟨hval, ?_, ?_, ?_⟩
  · intro c x environment service namespc now
    have henv : (setUsesPerWindow c x).context.environments = c.context.environments := by
      rcases hul : c.context.usage_limits with _ | ul <;> simp [setUsesPerWindow, hul]
    have hsvc : (setUsesPerWindow c x).context.services = c.context.services := by
      rcases hul : c.context.usage_limits with _ | ul <;> simp [setUsesPerWindow, hul]
    have hns : (setUsesPerWindow c x).context.namespaces = c.context.namespaces := by
      rcases hul : c.context.usage_limits with _ | ul <;> simp [setUsesPerWindow, hul]
    simp only [Capability.is_valid_for_context, hval, henv, hsvc, hns]
  · intro c x
    rcases hul : c.context.usage_limits with _ | ul
    · simp [Capability.increment_usage, setUsesPerWindow, hul]
    · rcases hm : ul.max_uses with _ | m
      · simp [Capability.increment_usage, setUsesPerWindow, hul, hm]
      · by_cases hc : ul.current_uses + 1 > m <;>
          simp [Capability.increment_usage, setUsesPerWindow, hul, hm, hc]
  · intro c ul hul hm
    exact ⟨by simp [usageGate, hul, hm], by simp [Capability.increment_usage, hul, hm]⟩

/-- Usage limits with no `max_uses` but a populated `uses_per_window`
pair. -/
def ulNoMax : UsageLimits :=
  { max_uses := none, uses_per_window := some (7, 60), current_uses := 0 }

/-- Token carrying `ulNoMax`. -/
def capNoMax : Capability :=
  { capPlain with
    id := "cap-nomax"
    context := { ctxFree with usage_limits := some ulNoMax } }

/-- C10 witness: the final clause of the theorem applied to `capNoMax`:
the usage gate passes and one recorded use succeeds while advancing the
counter. -/
theorem uses_per_window_unused_witness :
    usageGate capNoMax = true ∧
    capNoMax.increment_usage =
      (Except.ok (), { capNoMax with context := { capNoMax.context with
         usage_limits := some { ulNoMax with
           current_uses := ulNoMax.current_uses + 1 } } }) :=
  uses_per_window_unused.2.2.2 capNoMax ulNoMax rfl rfl

end AetherVault
